import Mathlib

/-!
Verification of the BattleChess9000 multiplayer service against its
specification.  The service is a WebSocket matchmaking and move-relay
server; we give a shallow embedding of its connection registry, session
registry, stats ledger and message handlers, and prove (or refute) the
specification's claims about them.

Two iterations of the server are embedded:
* the top-level definitions model the final `server.js` (lobby, private
  links, challenge flow, move relay, game-over ledger, disconnect
  teardown);
* namespace `P0` models the earlier iteration (the file that carries the
  `return_lobby` handler).

Connection handles, client identities and room identifiers are modelled
as natural numbers; the fresh-token generator (`uuidv4`) is modelled by
a counter, which preserves exactly the property the code relies on:
freshness.  The `Math.random` coin used for colour assignment is an
explicit `Bool` input of each message event.  Outbound traffic is the
list of (handle, message) pairs a handler produces, in send order.
JavaScript field access on a possibly-missing field is `Option`; the
one place the code calls a method on such a field without a guard
(`msg.name.substring` in the login handler) is modelled as a thrown
`JsError`, i.e. the handler returns `Except`.
-/

inductive ClientState where
  | connecting
  | lobby
  | waitingPrivate
  | playing
deriving DecidableEq, Repr

structure Client where
  id : Nat
  name : String
  avatar : Option String
  state : ClientState
deriving DecidableEq, Repr

structure Room where
  players : List Nat
  isPrivate : Bool
deriving DecidableEq, Repr

structure Stats where
  wins : Nat
  losses : Nat
deriving DecidableEq, Repr

structure ServerState where
  clients : List (Nat × Client)
  rooms : List (Nat × Room)
  globalStats : List (String × Stats)
  nextId : Nat
deriving DecidableEq, Repr

/-- A parsed client→server message: the `type` discriminator plus every
field any handler reads; a field the client did not send is `none`. -/
structure CMsg where
  type : String
  name : Option String
  avatar : Option String
  roomId : Option Nat
  targetId : Option Nat
  move : Option String
  winnerName : Option String
  loserName : Option String
deriving DecidableEq, Repr

/-- The all-absent message, for building concrete messages by update. -/
def noMsg : CMsg :=
  CMsg.mk "" none none none none none none none

structure LobbyEntry where
  id : Nat
  name : String
  avatar : Option String
  stats : Stats
deriving DecidableEq, Repr

/-- Server→client messages. -/
inductive SMsg where
  | lobby_update (players : List LobbyEntry)
  | login_success (myId : Nat)
  | private_created (roomId : Nat)
  | challenge_received (fromId : Nat) (fromName : String)
  | game_start (roomId : Nat) (color : String) (opponent : String)
  | move (payload : Option String)
  | opponent_disconnected
  | error (message : String)
deriving DecidableEq, Repr

/-- The only uncaught exception the handlers can raise: a JavaScript
`TypeError` from calling a method on `undefined`. -/
inductive JsError where
  | typeError
deriving DecidableEq, Repr

/-- First-match association-list lookup (JS `Map.get` / object index). -/
def lookupA {κ α : Type} [DecidableEq κ] : List (κ × α) → κ → Option α
  | [], _ => none
  | (k, v) :: rest, key => if k = key then some v else lookupA rest key

/-- Update the first entry with the given key in place (JS mutation of
the object returned by `Map.get`, or `Map.set` on an existing key:
insertion order is preserved, absent keys are untouched). -/
def updA {κ α : Type} [DecidableEq κ] : List (κ × α) → κ → (α → α) → List (κ × α)
  | [], _, _ => []
  | (k, v) :: rest, key, f =>
    if k = key then (k, f v) :: rest else (k, v) :: updA rest key f

/-- Remove the entry with the given key (JS `Map.delete` / `delete`). -/
def eraseA {κ α : Type} [DecidableEq κ] (l : List (κ × α)) (key : κ) : List (κ × α) :=
  l.filter (fun p => decide (p.1 ≠ key))

/-- JS `x || default` on an optional string: `undefined` and `""` are
falsy. -/
def jsOr (o : Option String) (d : String) : String :=
  match o with
  | none => d
  | some x => if x = "" then d else x

/-- `msg.name.substring(0, 15) || "Player"` once `msg.name` is known to
be a string. -/
def loginSafeName (n : String) : String :=
  if n.take 15 = "" then "Player" else n.take 15

/-- Set a registered client's state (`clients.get(ws).state = st`). -/
def setState (cls : List (Nat × Client)) (ws : Nat) (st : ClientState) :
    List (Nat × Client) :=
  updA cls ws (fun c => Client.mk c.id c.name c.avatar st)

/-- The lobby snapshot: one entry per `lobby`-state client, in registry
order, with the stats ledger consulted per display name. -/
def lobbyEntries (s : ServerState) : List LobbyEntry :=
  (s.clients.filter (fun p => decide (p.2.state = ClientState.lobby))).map
    (fun p =>
      LobbyEntry.mk p.2.id p.2.name p.2.avatar
        ((lookupA s.globalStats p.2.name).getD (Stats.mk 0 0)))

/-- `broadcastLobby()`: push the snapshot to every `lobby`-state
connection (identical in both server iterations). -/
def broadcastLobby (s : ServerState) : List (Nat × SMsg) :=
  (s.clients.filter (fun p => decide (p.2.state = ClientState.lobby))).map
    (fun p => (p.1, SMsg.lobby_update (lobbyEntries s)))

/-- Resolve `rooms[msg.roomId]` where the field may be absent. -/
def roomOf (s : ServerState) (rid : Option Nat) : Option Room :=
  match rid with
  | none => none
  | some r => lookupA s.rooms r

/-- The `challenge_accept` opponent scan: first registry entry whose id
equals the target id, at any status. -/
def findOppGo : List (Nat × Client) → Nat → Option Nat
  | [], _ => none
  | (k, c) :: rest, t => if c.id = t then some k else findOppGo rest t

def findOpp (cls : List (Nat × Client)) (tid : Option Nat) : Option Nat :=
  match tid with
  | none => none
  | some t => findOppGo cls t

/-- The `challenge_request` target scan: first registry entry whose id
equals the target id and whose status is `lobby`. -/
def findLobbyTarget : List (Nat × Client) → Nat → Option Nat
  | [], _ => none
  | (k, c) :: rest, t =>
    if c.id = t ∧ c.state = ClientState.lobby then some k else findLobbyTarget rest t

/-- `if (globalStats[nm]) f(globalStats[nm])` for a possibly-absent
name field: bump an existing record, never create one. -/
def bumpIf (st : List (String × Stats)) (nm : Option String) (f : Stats → Stats) :
    List (String × Stats) :=
  match nm with
  | none => st
  | some n => updA st n f

/-- `startGame(roomId)` of the final server: require exactly two
members, set both to `playing`, flip the colour coin, send `game_start`
to each with the other's name, then re-broadcast the lobby.  A member
missing from the registry would make `clients.get(p).state = ...`
throw. -/
def startGame (s : ServerState) (roomId : Nat) (coin : Bool) :
    Except JsError (ServerState × List (Nat × SMsg)) :=
  match lookupA s.rooms roomId with
  | none => Except.ok (s, [])
  | some room =>
    match room.players with
    | [p1, p2] =>
      match lookupA s.clients p1, lookupA s.clients p2 with
      | some c1, some c2 =>
        let clients' := setState (setState s.clients p1 ClientState.playing) p2
          ClientState.playing
        let s' := ServerState.mk clients' s.rooms s.globalStats s.nextId
        let c1Color := if coin then "w" else "b"
        let c2Color := if coin then "b" else "w"
        Except.ok (s',
          (p1, SMsg.game_start roomId c1Color c2.name) ::
          (p2, SMsg.game_start roomId c2Color c1.name) :: broadcastLobby s')
      | _, _ => Except.error JsError.typeError
    | _ => Except.ok (s, [])

/-- The `login` branch.  `msg.name.substring(0, 15)` throws when the
field is absent; otherwise truncate (no trimming), fall back to
`"Player"` only for the empty string, lazily create the stats record,
enter the lobby, acknowledge with the connect-time identity and
re-broadcast. -/
def handleLogin (s : ServerState) (ws : Nat) (cd : Client) (m : CMsg) :
    Except JsError (ServerState × List (Nat × SMsg)) :=
  match m.name with
  | none => Except.error JsError.typeError
  | some nm =>
    let safeName := loginSafeName nm
    let stats' :=
      match lookupA s.globalStats safeName with
      | none => s.globalStats ++ [(safeName, Stats.mk 0 0)]
      | some _ => s.globalStats
    let cd' := Client.mk cd.id safeName (some (jsOr m.avatar "w_k")) ClientState.lobby
    let s' := ServerState.mk (updA s.clients ws (fun _ => cd')) s.rooms stats' s.nextId
    Except.ok (s', (ws, SMsg.login_success cd.id) :: broadcastLobby s')

/-- The `create_private` branch: fresh room with the caller as sole
member, caller leaves the lobby list, the avatar is stored unguarded. -/
def handleCreatePrivate (s : ServerState) (ws : Nat) (cd : Client) (m : CMsg) :
    Except JsError (ServerState × List (Nat × SMsg)) :=
  let roomId := s.nextId
  let cd' := Client.mk cd.id (jsOr m.name "Host") m.avatar ClientState.waitingPrivate
  let s' := ServerState.mk (updA s.clients ws (fun _ => cd'))
    (s.rooms ++ [(roomId, Room.mk [ws] true)]) s.globalStats (s.nextId + 1)
  Except.ok (s', [(ws, SMsg.private_created roomId)])

/-- The `join_private` branch: join an existing under-full room and
start the game, otherwise reply `error` with no state change. -/
def handleJoinPrivate (s : ServerState) (ws : Nat) (cd : Client) (m : CMsg)
    (coin : Bool) : Except JsError (ServerState × List (Nat × SMsg)) :=
  match m.roomId with
  | none => Except.ok (s, [(ws, SMsg.error "Room not found or full")])
  | some rid =>
    match lookupA s.rooms rid with
    | none => Except.ok (s, [(ws, SMsg.error "Room not found or full")])
    | some room =>
      if room.players.length < 2 then
        let cd' := Client.mk cd.id (jsOr m.name "Guest") m.avatar ClientState.playing
        let s' := ServerState.mk (updA s.clients ws (fun _ => cd'))
          (updA s.rooms rid (fun r => Room.mk (r.players ++ [ws]) r.isPrivate))
          s.globalStats s.nextId
        startGame s' rid coin
      else Except.ok (s, [(ws, SMsg.error "Room not found or full")])

/-- The `challenge_request` branch: deliver `challenge_received` only
to a target that resolves and is currently in the lobby; otherwise
silently drop. -/
def handleChallengeRequest (s : ServerState) (_ws : Nat) (cd : Client) (m : CMsg) :
    Except JsError (ServerState × List (Nat × SMsg)) :=
  match m.targetId with
  | none => Except.ok (s, [])
  | some t =>
    match findLobbyTarget s.clients t with
    | none => Except.ok (s, [])
    | some tWs => Except.ok (s, [(tWs, SMsg.challenge_received cd.id cd.name)])

/-- The `challenge_accept` branch of the final server: resolve the
opponent at any status; if found, create a fresh two-member room and
start the game; if not, silently drop. -/
def handleChallengeAccept (s : ServerState) (ws : Nat) (m : CMsg) (coin : Bool) :
    Except JsError (ServerState × List (Nat × SMsg)) :=
  match findOpp s.clients m.targetId with
  | none => Except.ok (s, [])
  | some oWs =>
    let roomId := s.nextId
    let s' := ServerState.mk s.clients
      (s.rooms ++ [(roomId, Room.mk [ws, oWs] false)]) s.globalStats (s.nextId + 1)
    startGame s' roomId coin

/-- The `move` branch: relay the payload to every listed member except
the sender, in member order; unresolved room ids are dropped. -/
def handleMove (s : ServerState) (ws : Nat) (m : CMsg) :
    Except JsError (ServerState × List (Nat × SMsg)) :=
  match roomOf s m.roomId with
  | none => Except.ok (s, [])
  | some room =>
    Except.ok (s,
      (room.players.filter (fun p => decide (p ≠ ws))).map
        (fun p => (p, SMsg.move m.move)))

/-- The `game_over` branch: bump existing ledger records only; no
reply, no room or registry change. -/
def handleGameOver (s : ServerState) (m : CMsg) :
    Except JsError (ServerState × List (Nat × SMsg)) :=
  let st1 := bumpIf s.globalStats m.winnerName (fun r => Stats.mk (r.wins + 1) r.losses)
  let st2 := bumpIf st1 m.loserName (fun r => Stats.mk r.wins (r.losses + 1))
  Except.ok (ServerState.mk s.clients s.rooms st2 s.nextId, [])

/-- One incoming message on the final server.  The branches mirror the
source's `if` chain on `msg.type` (at most one can fire).  A handle
missing from the registry cannot occur for a live connection; such a
message is a no-op. -/
def handleMessage (s : ServerState) (ws : Nat) (m : CMsg) (coin : Bool) :
    Except JsError (ServerState × List (Nat × SMsg)) :=
  match lookupA s.clients ws with
  | none => Except.ok (s, [])
  | some cd =>
    match m.type with
    | "login" => handleLogin s ws cd m
    | "create_private" => handleCreatePrivate s ws cd m
    | "join_private" => handleJoinPrivate s ws cd m coin
    | "challenge_request" => handleChallengeRequest s ws cd m
    | "challenge_accept" => handleChallengeAccept s ws m coin
    | "move" => handleMove s ws m
    | "game_over" => handleGameOver s m
    | _ => Except.ok (s, [])

/-- A new connection: fresh handle and identity, `Guest` record in
`connecting` state. -/
def connectStep (s : ServerState) : ServerState :=
  ServerState.mk
    (s.clients ++ [(s.nextId, Client.mk (s.nextId + 1) "Guest" (some "w_p")
      ClientState.connecting)])
    s.rooms s.globalStats (s.nextId + 2)

/-- Disconnect teardown of the final server: notify the other members
of every room containing the handle, delete those rooms, drop the
registry entry, re-broadcast the lobby.  No survivor status change. -/
def closeStep (s : ServerState) (ws : Nat) : ServerState × List (Nat × SMsg) :=
  let affected := s.rooms.filter (fun p => p.2.players.contains ws)
  let notices := affected.flatMap
    (fun p => (p.2.players.filter (fun q => decide (q ≠ ws))).map
      (fun q => (q, SMsg.opponent_disconnected)))
  let s' := ServerState.mk (eraseA s.clients ws)
    (s.rooms.filter (fun p => !(p.2.players.contains ws))) s.globalStats s.nextId
  (s', notices ++ broadcastLobby s')

/-- External events driving the final server. -/
inductive Event where
  | connect
  | message (ws : Nat) (m : CMsg) (coin : Bool)
  | close (ws : Nat)

def stepE (s : ServerState) : Event → Except JsError (ServerState × List (Nat × SMsg))
  | Event.connect => Except.ok (connectStep s, [])
  | Event.message ws m coin => handleMessage s ws m coin
  | Event.close ws => Except.ok (closeStep s ws)

def initialState : ServerState :=
  ServerState.mk [] [] [] 0

def runTrace (evs : List Event) : Except JsError ServerState :=
  evs.foldlM (fun s e => (stepE s e).map Prod.fst) initialState

/-- The state after a trace that does not crash (fallback: the initial
state, never used by the concrete traces below). -/
def afterTr (tr : List Event) : ServerState :=
  match runTrace tr with
  | Except.ok s => s
  | Except.error _ => initialState

def stepSt (s : ServerState) (e : Event) : ServerState :=
  match stepE s e with
  | Except.ok r => r.1
  | Except.error _ => s

def stepSends (s : ServerState) (e : Event) : List (Nat × SMsg) :=
  match stepE s e with
  | Except.ok r => r.2
  | Except.error _ => []

/-- Rooms of which a handle is currently a member. -/
def memberRooms (s : ServerState) (ws : Nat) : List (Nat × Room) :=
  s.rooms.filter (fun p => p.2.players.contains ws)

/-- Occurrence count of a handle in a list of handles. -/
def countOccN (x : Nat) (l : List Nat) : Nat :=
  (l.filter (fun e => decide (e = x))).length

/-- Occurrence count of an outbound (handle, message) pair. -/
def countOccS (x : Nat × SMsg) (l : List (Nat × SMsg)) : Nat :=
  (l.filter (fun e => decide (e = x))).length

namespace P0

/-!
The earlier server iteration (`src/unnamed/part_000`): same registry,
login, challenge-request, move and game-over logic, no private-link
flow, the challenge-accept game start written inline, an extra
`return_lobby` handler, and a disconnect handler that only drops the
registry entry (rooms are never cleaned up there).
-/

/-- Inline challenge accept of the earlier iteration: resolve at any
status, fresh two-member room, both to `playing`, coin colours,
`game_start` to both, lobby re-broadcast. -/
def handleChallengeAccept (s : ServerState) (ws : Nat) (cd : Client) (m : CMsg)
    (coin : Bool) : Except JsError (ServerState × List (Nat × SMsg)) :=
  match findOpp s.clients m.targetId with
  | none => Except.ok (s, [])
  | some oWs =>
    match lookupA s.clients oWs with
    | none => Except.error JsError.typeError
    | some oc =>
      let roomId := s.nextId
      let clients' := setState (setState s.clients ws ClientState.playing) oWs
        ClientState.playing
      let s' := ServerState.mk clients'
        (s.rooms ++ [(roomId, Room.mk [ws, oWs] false)]) s.globalStats (s.nextId + 1)
      let p1Color := if coin then "w" else "b"
      let p2Color := if coin then "b" else "w"
      Except.ok (s',
        (ws, SMsg.game_start roomId p1Color oc.name) ::
        (oWs, SMsg.game_start roomId p2Color cd.name) :: broadcastLobby s')

/-- The `return_lobby` branch: set the sender's status back to `lobby`
and re-broadcast; rooms are left untouched. -/
def handleReturnLobby (s : ServerState) (ws : Nat) :
    Except JsError (ServerState × List (Nat × SMsg)) :=
  let s' := ServerState.mk (setState s.clients ws ClientState.lobby) s.rooms
    s.globalStats s.nextId
  Except.ok (s', broadcastLobby s')

/-- One incoming message on the earlier iteration. -/
def handleMessage (s : ServerState) (ws : Nat) (m : CMsg) (coin : Bool) :
    Except JsError (ServerState × List (Nat × SMsg)) :=
  match lookupA s.clients ws with
  | none => Except.ok (s, [])
  | some cd =>
    match m.type with
    | "login" => handleLogin s ws cd m
    | "challenge_request" => handleChallengeRequest s ws cd m
    | "challenge_accept" => handleChallengeAccept s ws cd m coin
    | "move" => handleMove s ws m
    | "game_over" => handleGameOver s m
    | "return_lobby" => handleReturnLobby s ws
    | _ => Except.ok (s, [])

/-- Disconnect in the earlier iteration: drop the registry entry and
re-broadcast; rooms are not touched. -/
def closeStep (s : ServerState) (ws : Nat) : ServerState × List (Nat × SMsg) :=
  let s' := ServerState.mk (eraseA s.clients ws) s.rooms s.globalStats s.nextId
  (s', broadcastLobby s')

def stepE (s : ServerState) : Event → Except JsError (ServerState × List (Nat × SMsg))
  | Event.connect => Except.ok (connectStep s, [])
  | Event.message ws m coin => handleMessage s ws m coin
  | Event.close ws => Except.ok (closeStep s ws)

def runTrace (evs : List Event) : Except JsError ServerState :=
  evs.foldlM (fun s e => (stepE s e).map Prod.fst) initialState

def afterTr (tr : List Event) : ServerState :=
  match runTrace tr with
  | Except.ok s => s
  | Except.error _ => initialState

end P0

/-!
Concrete message and trace definitions used by the counterexample and
evaluation theorems below.  Handles and identities are assigned by the
fresh counter: the first connection gets handle 0 and identity 1, the
second handle 2 and identity 3, and so on; room identifiers continue
the same counter.
-/

/-- `{"type":"login","name":nm,"avatar":"av"}`. -/
def loginMsg (nm av : String) : CMsg :=
  CMsg.mk "login" (some nm) (some av) none none none none none

/-- `{"type":"login"}` with no `name` field. -/
def loginNoName : CMsg :=
  CMsg.mk "login" none none none none none none none

/-- `{"type":"challenge_accept","targetId":t}`. -/
def acceptMsg (t : Nat) : CMsg :=
  CMsg.mk "challenge_accept" none none none (some t) none none none

/-- `{"type":"move","roomId":r,"move":mv}`. -/
def moveMsg (r : Nat) (mv : String) : CMsg :=
  CMsg.mk "move" none none (some r) none (some mv) none none

/-- `{"type":"game_over","winnerName":w,"loserName":l}`. -/
def gameOverMsg (w l : String) : CMsg :=
  CMsg.mk "game_over" none none none none none (some w) (some l)

/-- `{"type":"return_lobby"}`. -/
def returnLobbyMsg : CMsg :=
  CMsg.mk "return_lobby" none none none none none none none

/-- Trace for the disconnect claims: Alice (handle 0, id 1) and Bob
(handle 2, id 3) log in, Alice accepts a challenge against Bob (room 4),
then Bob disconnects. -/
def trPlay : List Event :=
  [Event.connect, Event.connect,
   Event.message 0 (loginMsg "Alice" "a") true,
   Event.message 2 (loginMsg "Bob" "b") true,
   Event.message 0 (acceptMsg 3) true]

/-- The state after `trPlay` followed by Bob's disconnect. -/
def sAfterClose : ServerState :=
  stepSt (afterTr trPlay) (Event.close 2)

/-- Trace for the stale-accept counterexample: Alice, Bob and Carol log
in; Alice accepts against Bob (room 6, Bob now `playing`). -/
def trStale : List Event :=
  [Event.connect, Event.connect, Event.connect,
   Event.message 0 (loginMsg "Alice" "a") true,
   Event.message 2 (loginMsg "Bob" "b") true,
   Event.message 4 (loginMsg "Carol" "c") true,
   Event.message 0 (acceptMsg 3) true]

/-- Trace for the self-accept counterexample: Ann (handle 0, id 1) logs
in alone. -/
def trSolo : List Event :=
  [Event.connect, Event.message 0 (loginMsg "Ann" "a") true]

/-- Trace for the duplicate-membership relay counterexample: Dan
(handle 0, id 1) and Eve (handle 2, id 3) connect, Dan logs in and then
accepts a challenge against his own identity, yielding room 4 whose
member list is `[0, 0]`. -/
def trDup : List Event :=
  [Event.connect, Event.connect,
   Event.message 0 (loginMsg "Dan" "d") true,
   Event.message 0 (acceptMsg 1) true]

/-- Trace for the login-trimming counterexample: a lone connection logs
in with a single-space name. -/
def trSpace : List Event :=
  [Event.connect, Event.message 0 (loginMsg " " "a") true]

/-- Trace (earlier iteration) reaching a playing pair: Ada (handle 0,
id 1) and Ben (handle 2, id 3) log in, Ada accepts a challenge against
Ben (room 4). -/
def trReturnPre : List Event :=
  [Event.connect, Event.connect,
   Event.message 0 (loginMsg "Ada" "a") true,
   Event.message 2 (loginMsg "Ben" "b") true,
   Event.message 0 (acceptMsg 3) true]

/-- Trace (earlier iteration) for the return-lobby counterexample:
`trReturnPre` followed by Ada's `return_lobby`. -/
def trReturn : List Event :=
  trReturnPre ++ [Event.message 0 returnLobbyMsg true]

/-- A small concrete state for the stats-ledger witness: one lobby
client and two ledger records. -/
def statsState : ServerState :=
  ServerState.mk [(0, Client.mk 1 "Ann" (some "a") ClientState.lobby)] []
    [("Ann", Stats.mk 2 3), ("Ben", Stats.mk 4 5)] 2

/-- Trace for the move-injection witness: Ala and Bob play in room 6
while Eve (handle 4, id 5) sits in the lobby, a member of no session. -/
def trInject : List Event :=
  [Event.connect, Event.connect, Event.connect,
   Event.message 0 (loginMsg "Ala" "a") true,
   Event.message 2 (loginMsg "Bob" "b") true,
   Event.message 4 (loginMsg "Eve" "e") true,
   Event.message 0 (acceptMsg 3) true]

/-!  ### Association-list and scan lemmas  -/

theorem lookupA_updA_self {κ α : Type} [DecidableEq κ] (l : List (κ × α)) (k : κ)
    (f : α → α) : lookupA (updA l k f) k = (lookupA l k).map f := by
  induction l with
  | nil => rfl
  | cons p rest ih =>
    obtain ⟨k', v⟩ := p
    by_cases h : k' = k
    · subst h
      simp [updA, lookupA]
    · simp [updA, lookupA, h, ih]

theorem lookupA_updA_ne {κ α : Type} [DecidableEq κ] (l : List (κ × α)) (k k' : κ)
    (f : α → α) (h : k' ≠ k) : lookupA (updA l k f) k' = lookupA l k' := by
  induction l with
  | nil => rfl
  | cons p rest ih =>
    obtain ⟨k₀, v⟩ := p
    by_cases h0 : k₀ = k
    · simp [updA, lookupA, h0, Ne.symm h]
    · simp [updA, lookupA, h0, ih]

theorem lookupA_append_of_none {κ α : Type} [DecidableEq κ] (l l₂ : List (κ × α))
    (k : κ) (h : lookupA l k = none) : lookupA (l ++ l₂) k = lookupA l₂ k := by
  induction l with
  | nil => rfl
  | cons p rest ih =>
    obtain ⟨k', v⟩ := p
    by_cases h0 : k' = k
    · subst h0
      simp [lookupA] at h
    · simp [lookupA, h0] at h ⊢
      exact ih h

theorem lookupA_isSome_of_mem {κ α : Type} [DecidableEq κ] (l : List (κ × α))
    (k : κ) (v : α) (hmem : (k, v) ∈ l) : ∃ v', lookupA l k = some v' := by
  induction l with
  | nil => simp at hmem
  | cons p rest ih =>
    obtain ⟨k', v'⟩ := p
    by_cases h0 : k' = k
    · subst h0
      exact ⟨v', by simp [lookupA]⟩
    · simp [lookupA, h0]
      rcases List.mem_cons.mp hmem with h | h
      · exact absurd (congrArg Prod.fst h).symm h0
      · exact ih h

theorem findOppGo_mem (cls : List (Nat × Client)) (t o : Nat)
    (h : findOppGo cls t = some o) : ∃ c, (o, c) ∈ cls ∧ c.id = t := by
  induction cls with
  | nil => simp [findOppGo] at h
  | cons p rest ih =>
    obtain ⟨k, c⟩ := p
    by_cases h0 : c.id = t
    · simp [findOppGo, h0] at h
      exact ⟨c, by simp [h], h0⟩
    · simp [findOppGo, h0] at h
      obtain ⟨c', hc', hid⟩ := ih h
      exact ⟨c', by simp [hc'], hid⟩

theorem findOpp_lookup (cls : List (Nat × Client)) (tid : Option Nat) (o : Nat)
    (h : findOpp cls tid = some o) : ∃ c, lookupA cls o = some c := by
  match tid with
  | none => simp [findOpp] at h
  | some t =>
    obtain ⟨c, hmem, _⟩ := findOppGo_mem cls t o h
    exact lookupA_isSome_of_mem cls o c hmem

theorem mem_broadcastLobby (s : ServerState) (e : Nat × SMsg)
    (h : e ∈ broadcastLobby s) : e.2 = SMsg.lobby_update (lobbyEntries s) := by
  unfold broadcastLobby at h
  obtain ⟨p, _, hp⟩ := List.mem_map.mp h
  rw [← hp]

/-!  ### Dispatch lemmas: one per `msg.type` branch  -/

theorem handleMessage_login (s : ServerState) (ws : Nat) (m : CMsg) (coin : Bool)
    (cd : Client) (hcd : lookupA s.clients ws = some cd) (hty : m.type = "login") :
    handleMessage s ws m coin = handleLogin s ws cd m := by
  unfold handleMessage
  rw [hcd, hty]
  rfl

theorem handleMessage_accept (s : ServerState) (ws : Nat) (m : CMsg) (coin : Bool)
    (cd : Client) (hcd : lookupA s.clients ws = some cd)
    (hty : m.type = "challenge_accept") :
    handleMessage s ws m coin = handleChallengeAccept s ws m coin := by
  unfold handleMessage
  rw [hcd, hty]
  rfl

theorem handleMessage_move (s : ServerState) (ws : Nat) (m : CMsg) (coin : Bool)
    (cd : Client) (hcd : lookupA s.clients ws = some cd) (hty : m.type = "move") :
    handleMessage s ws m coin = handleMove s ws m := by
  unfold handleMessage
  rw [hcd, hty]
  rfl

theorem handleMessage_gameOver (s : ServerState) (ws : Nat) (m : CMsg) (coin : Bool)
    (cd : Client) (hcd : lookupA s.clients ws = some cd) (hty : m.type = "game_over") :
    handleMessage s ws m coin = handleGameOver s m := by
  unfold handleMessage
  rw [hcd, hty]
  rfl

theorem P0.handleMessage_returnLobby (s : ServerState) (ws : Nat) (m : CMsg)
    (coin : Bool) (cd : Client) (hcd : lookupA s.clients ws = some cd)
    (hty : m.type = "return_lobby") :
    P0.handleMessage s ws m coin = P0.handleReturnLobby s ws := by
  unfold P0.handleMessage
  rw [hcd, hty]
  rfl

/-!  ### Relay counting lemmas  -/

theorem countOccN_filter_ne (l : List Nat) (p ws : Nat) (hne : p ≠ ws) :
    countOccN p (l.filter (fun q => decide (q ≠ ws))) = countOccN p l := by
  induction l with
  | nil => rfl
  | cons a rest ih =>
    by_cases ha : a = ws
    · have h1 : (a :: rest).filter (fun q => decide (q ≠ ws)) =
          rest.filter (fun q => decide (q ≠ ws)) := by
        rw [List.filter_cons_of_neg]
        simp [ha]
      have h2 : a ≠ p := by
        subst ha
        exact Ne.symm hne
      rw [h1, ih]
      simp [countOccN, List.filter_cons, h2]
    · have h1 : (a :: rest).filter (fun q => decide (q ≠ ws)) =
          a :: rest.filter (fun q => decide (q ≠ ws)) := by
        rw [List.filter_cons_of_pos]
        simp [ha]
      rw [h1]
      by_cases hp : a = p
      · simp [countOccN, List.filter_cons, hp] at ih ⊢
        exact ih
      · simp [countOccN, List.filter_cons, hp] at ih ⊢
        exact ih

theorem countOccS_map_pair (players : List Nat) (p : Nat) (msg : SMsg) :
    countOccS (p, msg) (players.map (fun q => (q, msg))) = countOccN p players := by
  induction players with
  | nil => rfl
  | cons a rest ih =>
    by_cases hp : a = p
    · simp [countOccS, countOccN, List.filter_cons, hp, Prod.mk.injEq] at ih ⊢
      exact ih
    · simp [countOccS, countOccN, List.filter_cons, hp, Prod.mk.injEq] at ih ⊢
      exact ih

theorem countOccN_eq_zero (l : List Nat) (p : Nat) (h : p ∉ l) : countOccN p l = 0 := by
  induction l with
  | nil => rfl
  | cons a rest ih =>
    have ha : a ≠ p := fun hh => h (by simp [hh])
    have hrest : p ∉ rest := fun hh => h (by simp [hh])
    simp [countOccN, List.filter_cons, ha] at ih ⊢
    exact ih hrest

theorem countOccN_cons_self (rest : List Nat) (p : Nat) :
    countOccN p (p :: rest) = countOccN p rest + 1 := by
  simp [countOccN, List.filter_cons]

theorem countOccN_cons_ne (rest : List Nat) (a p : Nat) (h : a ≠ p) :
    countOccN p (a :: rest) = countOccN p rest := by
  simp [countOccN, List.filter_cons, h]

theorem countOccN_nodup (l : List Nat) (p : Nat) (hnd : l.Nodup) (hp : p ∈ l) :
    countOccN p l = 1 := by
  induction l with
  | nil => simp at hp
  | cons a rest ih =>
    rcases List.mem_cons.mp hp with h | h
    · subst h
      rw [countOccN_cons_self, countOccN_eq_zero rest p (List.nodup_cons.mp hnd).1]
    · have ha : a ≠ p := by
        intro hh
        exact (List.nodup_cons.mp hnd).1 (hh ▸ h)
      rw [countOccN_cons_ne _ _ _ ha]
      exact ih (List.nodup_cons.mp hnd).2 h

/-- Exactly-once relay for sessions with pairwise-distinct members. -/
theorem count_relay (players : List Nat) (ws p : Nat) (pl : Option String)
    (hnd : players.Nodup) (hp : p ∈ players) (hne : p ≠ ws) :
    countOccS (p, SMsg.move pl)
      ((players.filter (fun q => decide (q ≠ ws))).map (fun q => (q, SMsg.move pl))) = 1 := by
  rw [countOccS_map_pair, countOccN_filter_ne _ _ _ hne]
  exact countOccN_nodup players p hnd hp

/-!  ### Claim theorems  -/

/-- C2: evaluated at the failing trace (Alice and Bob log in, play in
room 4, Bob disconnects), the code sends the survivor exactly one
`opponent_disconnected` and destroys the session (a later `move` on
room 4 is a no-op), but the survivor's status remains `playing` — not
`Lobby` as the claim requires — and the following lobby broadcast is
empty, so the survivor does not appear in any `lobby_update`. -/
theorem C2_disconnect_eval :
    runTrace trPlay = Except.ok (afterTr trPlay) ∧
    countOccS (0, SMsg.opponent_disconnected)
      (stepSends (afterTr trPlay) (Event.close 2)) = 1 ∧
    sAfterClose.rooms = [] ∧
    stepE sAfterClose (Event.message 0 (moveMsg 4 "x") true) =
      Except.ok (sAfterClose, []) ∧
    lookupA sAfterClose.clients 0 =
      some (Client.mk 1 "Alice" (some "a") ClientState.playing) ∧
    broadcastLobby sAfterClose = [] :=
  ⟨rfl, rfl, rfl, rfl, rfl, rfl⟩

/-- C3: in the reachable state after Bob's disconnect the surviving
connection has status `playing` while being a member of zero live
sessions, violating the claimed invariant Playing ⇔ membership in
exactly one live session. -/
theorem C3_invariant_eval :
    lookupA sAfterClose.clients 0 =
      some (Client.mk 1 "Alice" (some "a") ClientState.playing) ∧
    memberRooms sAfterClose 0 = [] :=
  ⟨rfl, rfl⟩

/-- C4: a structurally valid `login` message that merely omits the
`name` field makes the handler raise a `TypeError`
(`msg.name.substring` on `undefined`), contradicting the claim that no
single connection's input can raise. -/
theorem C4_login_crash_eval :
    stepE (afterTr [Event.connect]) (Event.message 0 loginNoName true) =
      Except.error JsError.typeError :=
  rfl

/-- C1 counterexample: Carol accepts a challenge against Bob while
Bob's status is `playing` (not `Lobby`); the server sends no `error`
(only `game_start` messages) and creates a second session, so the
claimed fail-closed behaviour is false. -/
theorem C1_counterexample :
    lookupA (afterTr trStale).clients 2 =
      some (Client.mk 3 "Bob" (some "b") ClientState.playing) ∧
    stepSends (afterTr trStale) (Event.message 4 (acceptMsg 3) true) =
      [(4, SMsg.game_start 7 "w" "Bob"), (2, SMsg.game_start 7 "b" "Carol")] ∧
    (stepSt (afterTr trStale) (Event.message 4 (acceptMsg 3) true)).rooms =
      [(6, Room.mk [0, 2] false), (7, Room.mk [4, 2] false)] :=
  ⟨rfl, rfl, rfl⟩

/-- C5 counterexample: Ann (identity 1) sends `challenge_accept` with
`targetId` equal to her own identity; instead of an error with no state
change, the server creates room 2 with Ann as both members, sends her
two `game_start` messages and marks her `playing`. -/
theorem C5_counterexample :
    (lookupA (afterTr trSolo).clients 0).map Client.id = some 1 ∧
    stepSends (afterTr trSolo) (Event.message 0 (acceptMsg 1) true) =
      [(0, SMsg.game_start 2 "w" "Ann"), (0, SMsg.game_start 2 "b" "Ann")] ∧
    (stepSt (afterTr trSolo) (Event.message 0 (acceptMsg 1) true)).rooms =
      [(2, Room.mk [0, 0] false)] ∧
    lookupA (stepSt (afterTr trSolo) (Event.message 0 (acceptMsg 1) true)).clients 0 =
      some (Client.mk 1 "Ann" (some "a") ClientState.playing) :=
  ⟨rfl, rfl, rfl, rfl⟩

/-- C6 counterexample (earlier iteration): after Ada returns to the
lobby from her session, her status is `lobby` but room 4 still lists
her handle among its members — the sender is not removed from the
session's membership and no teardown happens. -/
theorem C6_counterexample :
    lookupA (P0.afterTr trReturn).clients 0 =
      some (Client.mk 1 "Ada" (some "a") ClientState.lobby) ∧
    (P0.afterTr trReturn).rooms = [(4, Room.mk [0, 2] false)] :=
  ⟨rfl, rfl⟩

/-- C8 counterexample: room 4 is a live session whose member list is
`[0, 0]` (reachable via a self-accepted challenge); a `move` from the
non-member handle 2 is delivered to member 0 twice, not exactly
once. -/
theorem C8_counterexample :
    lookupA (afterTr trDup).rooms 4 = some (Room.mk [0, 0] false) ∧
    countOccS (0, SMsg.move (some "m"))
      (stepSends (afterTr trDup) (Event.message 2 (moveMsg 4 "m") true)) = 2 :=
  ⟨rfl, rfl⟩

/-- C9 counterexample: logging in with the single-space name `" "`
(empty after trimming) stores `" "` itself, not `"Player"` — the code
never trims whitespace. -/
theorem C9_counterexample :
    " ".toList.all Char.isWhitespace = true ∧
    lookupA (afterTr trSpace).clients 0 =
      some (Client.mk 1 " " (some "a") ClientState.lobby) ∧
    " " ≠ "Player" :=
  ⟨rfl, rfl, by decide⟩

/-!  ### Stats-ledger lemma and the game-over claim  -/

theorem lookupA_bumpIf (st : List (String × Stats)) (o : Option String)
    (f : Stats → Stats) (n : String) :
    lookupA (bumpIf st o f) n =
      if o = some n then (lookupA st n).map f else lookupA st n := by
  match o with
  | none => simp [bumpIf]
  | some w =>
    by_cases h : w = n
    · subst h
      simp [bumpIf, lookupA_updA_self]
    · simp [bumpIf, h, lookupA_updA_ne st w n f (Ne.symm h)]

/-- C7: a `game_over` message sends no reply, changes no session record
and no connection, increments the named winner's wins and the named
loser's losses exactly when a ledger record already exists for that
name, never creates a record, and leaves every other name's record
untouched. -/
theorem C7_gameOver_ledger (s : ServerState) (ws : Nat) (m : CMsg) (coin : Bool)
    (cd : Client) (hty : m.type = "game_over")
    (hcd : lookupA s.clients ws = some cd) :
    ∃ s', handleMessage s ws m coin = Except.ok (s', []) ∧
      s'.clients = s.clients ∧ s'.rooms = s.rooms ∧
      (∀ n, m.winnerName ≠ some n → m.loserName ≠ some n →
        lookupA s'.globalStats n = lookupA s.globalStats n) ∧
      (∀ n, lookupA s.globalStats n = none → lookupA s'.globalStats n = none) ∧
      (∀ n r, m.winnerName = some n → m.loserName ≠ some n →
        lookupA s.globalStats n = some r →
        lookupA s'.globalStats n = some (Stats.mk (r.wins + 1) r.losses)) ∧
      (∀ n r, m.loserName = some n → m.winnerName ≠ some n →
        lookupA s.globalStats n = some r →
        lookupA s'.globalStats n = some (Stats.mk r.wins (r.losses + 1))) ∧
      (∀ n r, m.winnerName = some n → m.loserName = some n →
        lookupA s.globalStats n = some r →
        lookupA s'.globalStats n = some (Stats.mk (r.wins + 1) (r.losses + 1))) := by
  rw [handleMessage_gameOver s ws m coin cd hcd hty]
  unfold handleGameOver
  refine ⟨_, rfl, rfl, rfl, ?_, ?_, ?_, ?_, ?_⟩
  · intro n hw hl
    simp [lookupA_bumpIf, hw, hl]
  · intro n h0
    simp [lookupA_bumpIf, h0]
  · intro n r hw hl h0
    simp [lookupA_bumpIf, hw, hl, h0]
  · intro n r hl hw h0
    simp [lookupA_bumpIf, hw, hl, h0]
  · intro n r hw hl h0
    simp [lookupA_bumpIf, hw, hl, h0]

/-- C7 witness: with ledger records Ann ↦ (2, 3) and Ben ↦ (4, 5),
`game_over{Ann, Ben}` yields Ann ↦ (3, 3), Ben ↦ (4, 6), leaves the
unknown name Cat absent, and changes neither rooms nor registry. -/
theorem C7_gameOver_ledger_witness :
    ∃ s', handleMessage statsState 0 (gameOverMsg "Ann" "Ben") true =
        Except.ok (s', []) ∧
      lookupA s'.globalStats "Ann" = some (Stats.mk 3 3) ∧
      lookupA s'.globalStats "Ben" = some (Stats.mk 4 6) ∧
      lookupA s'.globalStats "Cat" = none ∧
      s'.rooms = statsState.rooms ∧ s'.clients = statsState.clients := by
  obtain ⟨s', hok, hcl, hrm, hun, habs, hwin, hlos, hboth⟩ :=
    C7_gameOver_ledger statsState 0 (gameOverMsg "Ann" "Ben") true
      (Client.mk 1 "Ann" (some "a") ClientState.lobby) rfl rfl
  refine ⟨s', hok, ?_, ?_, ?_, hrm, hcl⟩
  · exact hwin "Ann" (Stats.mk 2 3) rfl (by decide) rfl
  · exact hlos "Ben" (Stats.mk 4 5) rfl (by decide) rfl
  · exact habs "Cat" rfl

/-- C8 amended: a `move` whose session resolves is relayed verbatim
once per occurrence of each member in the member list, never to the
sender and with no acknowledgement; when the members are pairwise
distinct every other member receives it exactly once; an unresolved
session id produces no sends and no state change. -/
theorem C8_move_relay (s : ServerState) (ws : Nat) (m : CMsg) (coin : Bool)
    (cd : Client) (hty : m.type = "move") (hcd : lookupA s.clients ws = some cd) :
    (roomOf s m.roomId = none → handleMessage s ws m coin = Except.ok (s, [])) ∧
    (∀ room, roomOf s m.roomId = some room →
      handleMessage s ws m coin = Except.ok (s,
        (room.players.filter (fun q => decide (q ≠ ws))).map
          (fun q => (q, SMsg.move m.move))) ∧
      (∀ x, (ws, x) ∉ (room.players.filter (fun q => decide (q ≠ ws))).map
        (fun q => (q, SMsg.move m.move))) ∧
      (room.players.Nodup → ∀ p, p ∈ room.players → p ≠ ws →
        countOccS (p, SMsg.move m.move)
          ((room.players.filter (fun q => decide (q ≠ ws))).map
            (fun q => (q, SMsg.move m.move))) = 1)) := by
  rw [handleMessage_move s ws m coin cd hcd hty]
  constructor
  · intro h0
    unfold handleMove
    rw [h0]
  · intro room hr
    unfold handleMove
    rw [hr]
    refine ⟨rfl, ?_, ?_⟩
    · intro x hx
      obtain ⟨q, hq, hqe⟩ := List.mem_map.mp hx
      have hqne : q ≠ ws := by
        have := List.mem_filter.mp hq
        simpa using this.2
      exact hqne (congrArg Prod.fst hqe)
    · intro hnd p hp hne
      exact count_relay room.players ws p m.move hnd hp hne

/-- C8 witness: in the two-member session `[0, 2]` of room 6, a move
from member 0 is delivered to member 2 alone, exactly once. -/
theorem C8_move_relay_witness :
    handleMessage (afterTr trInject) 0 (moveMsg 6 "e2e4") true =
      Except.ok (afterTr trInject, [(2, SMsg.move (some "e2e4"))]) ∧
    countOccS (2, SMsg.move (some "e2e4")) [(2, SMsg.move (some "e2e4"))] = 1 := by
  obtain ⟨hnone, hsome⟩ := C8_move_relay (afterTr trInject) 0 (moveMsg 6 "e2e4") true
    (Client.mk 1 "Ala" (some "a") ClientState.playing) rfl rfl
  obtain ⟨heq, hnot, hcount⟩ := hsome (Room.mk [0, 2] false) rfl
  exact ⟨heq, hcount (by decide) 2 (by decide) (by decide)⟩

/-- C10: a `move` naming an existing session is relayed to every other
listed member with no requirement at all on the sender: the hypotheses
say nothing about the sender's status or membership, only that it is a
registered connection. -/
theorem C10_move_injection (s : ServerState) (ws : Nat) (m : CMsg) (coin : Bool)
    (cd : Client) (room : Room) (hty : m.type = "move")
    (hcd : lookupA s.clients ws = some cd)
    (hroom : roomOf s m.roomId = some room) :
    ∃ sends, handleMessage s ws m coin = Except.ok (s, sends) ∧
      ∀ p, p ∈ room.players → p ≠ ws → (p, SMsg.move m.move) ∈ sends := by
  rw [handleMessage_move s ws m coin cd hcd hty]
  unfold handleMove
  rw [hroom]
  refine ⟨_, rfl, ?_⟩
  intro p hp hne
  exact List.mem_map_of_mem _ (List.mem_filter.mpr ⟨hp, by simpa using hne⟩)

/-- C10 witness: Eve (handle 4) is in the lobby and a member of no
session, yet her `move` naming room 6 is delivered to both members of
that session. -/
theorem C10_move_injection_witness :
    ∃ sends, handleMessage (afterTr trInject) 4 (moveMsg 6 "z") true =
        Except.ok (afterTr trInject, sends) ∧
      (0, SMsg.move (some "z")) ∈ sends ∧ (2, SMsg.move (some "z")) ∈ sends ∧
      lookupA (afterTr trInject).clients 4 =
        some (Client.mk 5 "Eve" (some "e") ClientState.lobby) ∧
      memberRooms (afterTr trInject) 4 = [] := by
  obtain ⟨sends, hok, hmem⟩ := C10_move_injection (afterTr trInject) 4 (moveMsg 6 "z")
    true (Client.mk 5 "Eve" (some "e") ClientState.lobby) (Room.mk [0, 2] false)
    rfl rfl rfl
  exact ⟨sends, hok, hmem 0 (by decide) (by decide), hmem 2 (by decide) (by decide),
    rfl, rfl⟩

/-- C9 amended: for a `login` whose `name` field is present, the stored
display name is the supplied name truncated to 15 characters, with
`"Player"` substituted only when that truncation is the empty string —
no whitespace trimming; a ledger record for the stored name is created
lazily if absent and kept if present; the connection enters the lobby;
the reply is `login_success` with the connect-time identity followed by
the lobby broadcast; rooms are untouched. -/
theorem C9_login_behaviour (s : ServerState) (ws : Nat) (m : CMsg) (coin : Bool)
    (cd : Client) (n : String) (hty : m.type = "login")
    (hcd : lookupA s.clients ws = some cd) (hn : m.name = some n) :
    ∃ s', handleMessage s ws m coin =
        Except.ok (s', (ws, SMsg.login_success cd.id) :: broadcastLobby s') ∧
      lookupA s'.clients ws = some (Client.mk cd.id (loginSafeName n)
        (some (jsOr m.avatar "w_k")) ClientState.lobby) ∧
      lookupA s'.globalStats (loginSafeName n) =
        some ((lookupA s.globalStats (loginSafeName n)).getD (Stats.mk 0 0)) ∧
      s'.rooms = s.rooms := by
  rw [handleMessage_login s ws m coin cd hcd hty]
  unfold handleLogin
  rw [hn]
  cases h0 : lookupA s.globalStats (loginSafeName n) with
  | none =>
    simp only [h0]
    refine ⟨_, rfl, ?_, ?_, rfl⟩
    · rw [lookupA_updA_self, hcd]
      rfl
    · rw [lookupA_append_of_none s.globalStats _ _ h0]
      simp [lookupA]
  | some r =>
    simp only [h0]
    refine ⟨_, rfl, ?_, ?_, rfl⟩
    · rw [lookupA_updA_self, hcd]
      rfl
    · simpa using h0

/-- C9 witness: a fresh connection logging in with a 21-character name
gets it truncated to 15 characters, a zeroed ledger record, lobby
status, and `login_success` carrying identity 1. -/
theorem C9_login_behaviour_witness :
    ∃ s', handleMessage (afterTr [Event.connect]) 0
        (loginMsg "Christopher Alexander" "av") true =
      Except.ok (s', (0, SMsg.login_success 1) :: broadcastLobby s') ∧
      lookupA s'.clients 0 =
        some (Client.mk 1 "Christopher Ale" (some "av") ClientState.lobby) ∧
      lookupA s'.globalStats "Christopher Ale" = some (Stats.mk 0 0) := by
  obtain ⟨s', hok, hcl, hst, hrm⟩ := C9_login_behaviour (afterTr [Event.connect]) 0
    (loginMsg "Christopher Alexander" "av") true
    (Client.mk 1 "Guest" (some "w_p") ClientState.connecting)
    "Christopher Alexander" rfl rfl rfl
  exact ⟨s', hok, hcl, hst⟩

/-!  ### Challenge-accept and return-lobby claims  -/

theorem startGame_pair (s : ServerState) (roomId : Nat) (coin : Bool)
    (p1 p2 : Nat) (c1 c2 : Client) (room : Room)
    (hroom : lookupA s.rooms roomId = some room)
    (hplayers : room.players = [p1, p2])
    (h1 : lookupA s.clients p1 = some c1) (h2 : lookupA s.clients p2 = some c2) :
    startGame s roomId coin = Except.ok
      (ServerState.mk (setState (setState s.clients p1 ClientState.playing) p2
        ClientState.playing) s.rooms s.globalStats s.nextId,
       (p1, SMsg.game_start roomId (if coin then "w" else "b") c2.name) ::
       (p2, SMsg.game_start roomId (if coin then "b" else "w") c1.name) ::
       broadcastLobby (ServerState.mk (setState (setState s.clients p1
         ClientState.playing) p2 ClientState.playing) s.rooms s.globalStats
         s.nextId)) := by
  obtain ⟨players, ipriv⟩ := room
  have hp2 : players = [p1, p2] := hplayers
  subst hp2
  unfold startGame
  rw [hroom]
  simp only [h1, h2]

/-- C1 amended: `challenge_accept` performs no Lobby re-validation and
never replies `error`: an unresolved target identity is silently
dropped with no state change, and a resolved one — whatever its status
— yields a fresh session containing the caller and the resolved
connection, with no `error` among the sends. -/
theorem C1_accept_no_revalidation (s : ServerState) (ws : Nat) (m : CMsg)
    (coin : Bool) (cd : Client) (hty : m.type = "challenge_accept")
    (hcd : lookupA s.clients ws = some cd)
    (hfresh : lookupA s.rooms s.nextId = none) :
    (findOpp s.clients m.targetId = none →
      handleMessage s ws m coin = Except.ok (s, [])) ∧
    (∀ oWs, findOpp s.clients m.targetId = some oWs →
      ∃ s' sends, handleMessage s ws m coin = Except.ok (s', sends) ∧
        lookupA s'.rooms s.nextId = some (Room.mk [ws, oWs] false) ∧
        (∀ t msg, (t, msg) ∈ sends → ∀ em, msg ≠ SMsg.error em)) := by
  rw [handleMessage_accept s ws m coin cd hcd hty]
  constructor
  · intro h0
    unfold handleChallengeAccept
    rw [h0]
  · intro oWs hsome
    unfold handleChallengeAccept
    rw [hsome]
    obtain ⟨oc, hoc⟩ := findOpp_lookup s.clients m.targetId oWs hsome
    have hr1 : lookupA (s.rooms ++ [(s.nextId, Room.mk [ws, oWs] false)]) s.nextId =
        some (Room.mk [ws, oWs] false) := by
      rw [lookupA_append_of_none s.rooms _ _ hfresh]
      simp [lookupA]
    have hsg := startGame_pair
      (ServerState.mk s.clients (s.rooms ++ [(s.nextId, Room.mk [ws, oWs] false)])
        s.globalStats (s.nextId + 1))
      s.nextId coin ws oWs cd oc (Room.mk [ws, oWs] false) hr1 rfl hcd hoc
    refine ⟨_, _, hsg, hr1, ?_⟩
    intro t msg hmem em
    simp only [List.mem_cons] at hmem
    rcases hmem with h | h | h
    · have hmsg := congrArg Prod.snd h
      simp only at hmsg
      rw [hmsg]
      intro hcontra
      exact SMsg.noConfusion hcontra
    · have hmsg := congrArg Prod.snd h
      simp only at hmsg
      rw [hmsg]
      intro hcontra
      exact SMsg.noConfusion hcontra
    · have hmsg := mem_broadcastLobby _ _ h
      simp only at hmsg
      rw [hmsg]
      intro hcontra
      exact SMsg.noConfusion hcontra

/-- C1 witness: Carol accepts against Bob, whose status is `playing`;
the opponent resolves, so a second session is created and no error is
sent. -/
theorem C1_accept_no_revalidation_witness :
    ∃ s' sends, handleMessage (afterTr trStale) 4 (acceptMsg 3) true =
        Except.ok (s', sends) ∧
      lookupA s'.rooms 7 = some (Room.mk [4, 2] false) := by
  obtain ⟨hnone, hsome⟩ := C1_accept_no_revalidation (afterTr trStale) 4
    (acceptMsg 3) true (Client.mk 5 "Carol" (some "c") ClientState.lobby) rfl rfl rfl
  obtain ⟨s', sends, hok, hlook, hnoerr⟩ := hsome 2 rfl
  exact ⟨s', sends, hok, hlook⟩

/-- C5 amended: a `challenge_accept` whose target identity resolves to
the caller itself is not rejected: the server creates a session whose
two member slots both hold the caller, marks the caller `playing`, and
sends no `error`. -/
theorem C5_self_accept (s : ServerState) (ws : Nat) (m : CMsg) (coin : Bool)
    (cd : Client) (hty : m.type = "challenge_accept")
    (hcd : lookupA s.clients ws = some cd)
    (hself : findOpp s.clients m.targetId = some ws)
    (hfresh : lookupA s.rooms s.nextId = none) :
    ∃ s' sends, handleMessage s ws m coin = Except.ok (s', sends) ∧
      lookupA s'.rooms s.nextId = some (Room.mk [ws, ws] false) ∧
      lookupA s'.clients ws =
        some (Client.mk cd.id cd.name cd.avatar ClientState.playing) ∧
      (∀ t msg, (t, msg) ∈ sends → ∀ em, msg ≠ SMsg.error em) := by
  rw [handleMessage_accept s ws m coin cd hcd hty]
  unfold handleChallengeAccept
  rw [hself]
  have hr1 : lookupA (s.rooms ++ [(s.nextId, Room.mk [ws, ws] false)]) s.nextId =
      some (Room.mk [ws, ws] false) := by
    rw [lookupA_append_of_none s.rooms _ _ hfresh]
    simp [lookupA]
  have hsg := startGame_pair
    (ServerState.mk s.clients (s.rooms ++ [(s.nextId, Room.mk [ws, ws] false)])
      s.globalStats (s.nextId + 1))
    s.nextId coin ws ws cd cd (Room.mk [ws, ws] false) hr1 rfl hcd hcd
  refine ⟨_, _, hsg, hr1, ?_, ?_⟩
  · unfold setState
    rw [lookupA_updA_self, lookupA_updA_self, hcd]
    rfl
  · intro t msg hmem em
    simp only [List.mem_cons] at hmem
    rcases hmem with h | h | h
    · have hmsg := congrArg Prod.snd h
      simp only at hmsg
      rw [hmsg]
      intro hcontra
      exact SMsg.noConfusion hcontra
    · have hmsg := congrArg Prod.snd h
      simp only at hmsg
      rw [hmsg]
      intro hcontra
      exact SMsg.noConfusion hcontra
    · have hmsg := mem_broadcastLobby _ _ h
      simp only at hmsg
      rw [hmsg]
      intro hcontra
      exact SMsg.noConfusion hcontra

/-- C5 witness: Ann alone accepts her own identity and ends up playing
herself in room 2, with no error sent. -/
theorem C5_self_accept_witness :
    ∃ s' sends, handleMessage (afterTr trSolo) 0 (acceptMsg 1) true =
        Except.ok (s', sends) ∧
      lookupA s'.rooms 2 = some (Room.mk [0, 0] false) ∧
      lookupA s'.clients 0 =
        some (Client.mk 1 "Ann" (some "a") ClientState.playing) := by
  obtain ⟨s', sends, hok, hroom, hcl, hnoerr⟩ := C5_self_accept (afterTr trSolo) 0
    (acceptMsg 1) true (Client.mk 1 "Ann" (some "a") ClientState.lobby) rfl rfl rfl rfl
  exact ⟨s', sends, hok, hroom, hcl⟩

/-- C6 amended: in the iteration carrying `return_lobby`, the handler
sets the sender's status to `lobby` and re-broadcasts, but removes the
sender from no session's membership and tears nothing down: the room
table is left exactly as it was. -/
theorem C6_returnLobby_keeps_membership (s : ServerState) (ws : Nat) (m : CMsg)
    (coin : Bool) (cd : Client) (hty : m.type = "return_lobby")
    (hcd : lookupA s.clients ws = some cd) :
    ∃ s', P0.handleMessage s ws m coin = Except.ok (s', broadcastLobby s') ∧
      lookupA s'.clients ws =
        some (Client.mk cd.id cd.name cd.avatar ClientState.lobby) ∧
      s'.rooms = s.rooms ∧ s'.globalStats = s.globalStats := by
  rw [P0.handleMessage_returnLobby s ws m coin cd hcd hty]
  unfold P0.handleReturnLobby
  refine ⟨_, rfl, ?_, rfl, rfl⟩
  unfold setState
  rw [lookupA_updA_self, hcd]
  rfl

/-- C6 witness: Ada, playing in room 4, sends `return_lobby`; her
status becomes `lobby` while the room table — including room 4 with her
handle in it — is unchanged. -/
theorem C6_returnLobby_keeps_membership_witness :
    ∃ s', P0.handleMessage (P0.afterTr trReturnPre) 0 returnLobbyMsg true =
        Except.ok (s', broadcastLobby s') ∧
      lookupA s'.clients 0 =
        some (Client.mk 1 "Ada" (some "a") ClientState.lobby) ∧
      s'.rooms = [(4, Room.mk [0, 2] false)] := by
  obtain ⟨s', hok, hcl, hrm, hst⟩ := C6_returnLobby_keeps_membership
    (P0.afterTr trReturnPre) 0 returnLobbyMsg true
    (Client.mk 1 "Ada" (some "a") ClientState.playing) rfl rfl
  exact ⟨s', hok, hcl, hrm⟩
